import Mathlib

/-!
Verification of the Slack Block Kit builder module (src/skit.py,
originally src/block_kits/block_kit.py).

The module assembles chat-platform UI payloads (sections, buttons,
dividers, rich text).  Python dictionaries and lists are embedded as the
dynamic value type SVal below; every builder method becomes a pure Lean
function over SVal.  String slicing s[:3000] slices by code points, which
matches String data lists of Char.  The Python stdlib function
html.unescape is not part of this repository; the builder methods take it
as an explicit function parameter (unesc), and a concrete model
unescapeBasic, faithful to html.unescape on inputs whose ampersands all
begin one of the references amp, lt, gt with explicit semicolons,
is used to instantiate concrete counterexamples and witnesses.
-/

set_option maxRecDepth 20000

/-- Dynamic value type embedding the Python data reachable in this module:
strings, booleans, lists and (insertion-ordered) string-keyed dicts. -/
inductive SVal where
  | str : String → SVal
  | bool : Bool → SVal
  | list : List SVal → SVal
  | dict : List (String × SVal) → SVal

/-- Rendering of an optional string in a Python f-string: str(None) = "None". -/
def pyStr : Option String → String
  | some s => s
  | none => "None"

/-- Python truthiness test `not x` for an Optional[str]: None and "" are falsy. -/
def optFalsy (o : Option String) : Bool := o.getD "" == ""

/-- Python slice s[:n] (by code points). -/
def pySlice (n : Nat) (s : String) : String := ⟨s.data.take n⟩

/-- Python "sep".join(items). -/
def pyJoin (sep : String) : List String → String
  | [] => ""
  | [x] => x
  | x :: y :: xs => x ++ sep ++ pyJoin sep (y :: xs)

/-! ## Model of the regex HTTP_LINK_RE = https?://[^\s)>\]]+  (IGNORECASE)

re.findall scans left to right; at each position it tries the pattern
(greedy optional s, then a maximal nonempty run of characters that are
neither whitespace nor one of the three terminators), and on success
resumes after the match, otherwise advances one character.  Python str
patterns treat \s as Unicode whitespace; case-insensitivity is modelled
on ASCII letters (the only letters in the pattern). -/

/-- Characters matched by \s in a Python str regex (codepoints with
str.isspace true). -/
def pySpace (c : Char) : Bool :=
  [9, 10, 11, 12, 13, 28, 29, 30, 31, 32, 0x85, 0xa0, 0x1680,
   0x2000, 0x2001, 0x2002, 0x2003, 0x2004, 0x2005, 0x2006, 0x2007,
   0x2008, 0x2009, 0x200a, 0x2028, 0x2029, 0x202f, 0x205f, 0x3000].contains c.toNat

/-- A character that ends a URL match: whitespace or one of `)`, `>`, `]`. -/
def isStop (c : Char) : Bool := pySpace c || c == ')' || c == '>' || c == ']'

/-- Case-insensitive literal match: consume characters of cs matching pat
(pat is lowercase), returning the consumed characters and the remainder. -/
def stripCI : List Char → List Char → Option (List Char × List Char)
  | [], cs => some ([], cs)
  | _ :: _, [] => none
  | p :: ps, c :: cs =>
    if c.toLower = p then
      match stripCI ps cs with
      | some (tk, r) => some (c :: tk, r)
      | none => none
    else none

/-- Match the scheme part https?:// at the head of cs (greedy s first,
as the regex engine tries). -/
def matchScheme (cs : List Char) : Option (List Char × List Char) :=
  match stripCI "https://".data cs with
  | some r => some r
  | none => stripCI "http://".data cs

/-- Try the whole pattern at the head of cs: scheme, then a maximal
nonempty run of non-stop characters.  Returns (match, remainder). -/
def tryMatch (cs : List Char) : Option (List Char × List Char) :=
  match matchScheme cs with
  | none => none
  | some (sch, rest) =>
    let body := rest.takeWhile (fun c => !(isStop c))
    if body.isEmpty then none
    else some (sch ++ body, rest.dropWhile (fun c => !(isStop c)))

/-- Fueled scan implementing re.findall: on a match resume after it,
otherwise advance one character.  Any fuel at least the list length is
exact (each step strictly shrinks the input). -/
def scanF : Nat → List Char → List (List Char)
  | _, [] => []
  | 0, _ :: _ => []
  | Nat.succ f, c :: t =>
    match tryMatch (c :: t) with
    | some (m, rest) => m :: scanF f rest
    | none => scanF f t

/-- re.findall of HTTP_LINK_RE over a character list. -/
def scan (cs : List Char) : List (List Char) := scanF cs.length cs

/-! ## Model of html.unescape restricted to basic entities

Agrees with Python html.unescape on every input whose ampersands each
begin one of the references amp; lt; gt; written with an explicit
semicolon (in particular on inputs with no ampersand at all). -/

def unescChars : List Char → List Char
  | [] => []
  | '&' :: 'a' :: 'm' :: 'p' :: ';' :: r => '&' :: unescChars r
  | '&' :: 'l' :: 't' :: ';' :: r => '<' :: unescChars r
  | '&' :: 'g' :: 't' :: ';' :: r => '>' :: unescChars r
  | c :: rest => c :: unescChars rest

/-- Concrete instance of html.unescape used for closed witnesses. -/
def unescapeBasic (s : String) : String := ⟨unescChars s.data⟩

/-! ## Free-standing block helpers (_mk_section, _mk_button, _divider) -/

/-- Python helper _mk_section. -/
def mk_section (text : String) : SVal :=
  .dict [("type", .str "section"),
         ("text", .dict [("type", .str "mrkdwn"), ("text", .str text)])]

/-- Python helper _mk_button (style is optional; value defaults to "value"
at every call site in the source). -/
def mk_button (text action_id : String) (style : Option String) (value : String) : SVal :=
  match style with
  | none =>
    .dict [("type", .str "button"),
           ("text", .dict [("type", .str "plain_text"), ("text", .str text), ("emoji", .bool true)]),
           ("value", .str value),
           ("action_id", .str action_id)]
  | some st =>
    .dict [("type", .str "button"),
           ("text", .dict [("type", .str "plain_text"), ("text", .str text), ("emoji", .bool true)]),
           ("value", .str value),
           ("action_id", .str action_id),
           ("style", .str st)]

/-- Python helper _divider. -/
def divider : SVal := .dict [("type", .str "divider")]

/-! ## The BlockKit dataclass -/

/-- The BlockKit dataclass: all fields optional, defaulting to None. -/
structure BlockKit where
  thread : Option String := none
  question : Option String := none
  user_id : Option String := none
  block_body : Option (List SVal) := none
  channel_id : Option String := none
  additional_details : Option String := none
  bot_id : Option String := none
  llm_answer : Option String := none
  llm_link : Option String := none
  channel_name : Option String := none

/-- A BlockKit with every field absent (all dataclass defaults). -/
def emptyKit : BlockKit := {}

/-- The fixed route table inside set_channel_name. -/
def channel_mapping : List (String × String) :=
  [("help-gcp-apple", "GCP"),
   ("help-aws-apple", "AWS"),
   ("help-oci-apple", "OCI"),
   ("help-icloud-apple", "iCloud"),
   ("help-alicloud", "Alicloud"),
   ("help-linux-found", "Linux Foundation"),
   ("help-rubix", "Rubix"),
   ("help-spinclou", "Spincloud"),
   ("Rubix", "Rubix"),
   ("GCP", "GCP"),
   ("AWS", "AWS"),
   ("OCI", "OCI"),
   ("Alicloud", "Alicloud")]

/-- BlockKit.set_channel_name: channel_name := mapping.get(raw, raw or "General").
The mutation of self is modelled by returning the updated record. -/
def set_channel_name (st : BlockKit) (raw : String) : BlockKit :=
  { st with
    channel_name := some ((channel_mapping.lookup raw).getD (if raw = "" then "General" else raw)) }

/-- BlockKit.extract_links: `if not text: return []` then HTTP_LINK_RE.findall. -/
def extract_links (text : Option String) : List String :=
  match text with
  | none => []
  | some t => if t = "" then [] else (scan t.data).map String.mk

/-- BlockKit._link_hint_blocks: nothing for no links, else one section with
the first at most three links as bullets. -/
def link_hint_blocks (links : List String) : List SVal :=
  if links.isEmpty then []
  else
    [mk_section ("*The following link(s) might help you:*\n" ++
       pyJoin "\n" ((links.take 3).map (fun u => "• " ++ u)))]

/-- BlockKit.feedback_block_kit: message-level feedback buttons. -/
def feedback_block_kit : List SVal :=
  [divider,
   mk_section "Did you find our suggestion satisfactory?",
   .dict [("type", .str "actions"),
          ("elements", .list
            [mk_button "👍" "vertex_positive" (some "primary") "value",
             mk_button "👎" "vertex_negative" (some "danger") "value"])]]

/-- BlockKit.thread_feedback_block_kit: thread-level feedback buttons. -/
def thread_feedback_block_kit : List SVal :=
  [divider,
   mk_section "Did you find our suggestion satisfactory?",
   .dict [("type", .str "actions"),
          ("elements", .list
            [mk_button "👍" "thread_positive" (some "primary") "value",
             mk_button "👎" "thread_negative" (some "danger") "value"])]]

/-- BlockKit.build_answer_blocks.  unesc stands for html.unescape. -/
def build_answer_blocks (unesc : String → String) (st : BlockKit) : SVal :=
  if optFalsy st.llm_answer then
    .dict [("blocks", .list
      [mk_section ("Sorry, <@" ++ pyStr st.user_id ++ "> — no suggestions have been found.")])]
  else
    let answer := pySlice 3000 (unesc (st.llm_answer.getD ""))
    .dict [("blocks", .list
      (mk_section ("Thank you for submitting a request with Cloud Tech. " ++
                   "Based on your query, the following answer has been found:")
       :: mk_section answer
       :: (link_hint_blocks (extract_links (some answer)) ++ feedback_block_kit)))]

/-- The fixed preamble section of build_answer_blocks. -/
def preambleSection : SVal :=
  mk_section ("Thank you for submitting a request with Cloud Tech. " ++
              "Based on your query, the following answer has been found:")

/-- Extract the block sequence of a wrapper payload (indexing ["blocks"]). -/
def getBlocks (v : SVal) : List SVal :=
  match v with
  | .dict [("blocks", .list bs)] => bs
  | _ => []

/-- The guard `item.get("type") == "section" and "text" in item` of
feedback_update_block, for a dict with entry list es. -/
def isSectionWithText (es : List (String × SVal)) : Bool :=
  (match List.lookup "type" es with
   | some (.str t) => t == "section"
   | _ => false) && es.any (fun p => p.1 == "text")

/-- Python dict assignment d[k] = v: replace in place if the key exists,
else append. -/
def setKey (es : List (String × SVal)) (k : String) (v : SVal) : List (String × SVal) :=
  if es.any (fun p => p.1 == k) then
    es.map (fun p => if p.1 == k then (k, v) else p)
  else es ++ [(k, v)]

/-- One loop iteration of feedback_update_block on a block:
  if item.get("type") == "section" and "text" in item:
      item["text"]["text"] = unescape(item["text"]["text"])[:3000]
Non-dict items raise AttributeError at item.get; a string or list or bool
item["text"] raises TypeError at the nested indexing; a missing nested
"text" raises KeyError.  For a nested "text" value that is not a string,
html.unescape first evaluates the membership test
  if "&" not in x: return x
so a list without the one-character string "&" among its elements passes
through unchanged and is then sliced element-wise by [:3000] and assigned
back; a list containing "&" reaches the regex substitution and raises
TypeError; a dict raises TypeError either at the substitution (when "&"
is a key) or at the unhashable slice; a bool raises TypeError at the
membership test.  Errors are modelled with Except. -/
def updItem (unesc : String → String) (item : SVal) : Except String SVal :=
  match item with
  | .dict es =>
    if isSectionWithText es then
      match List.lookup "text" es with
      | some (.dict ts) =>
        match List.lookup "text" ts with
        | some (.str s) =>
          .ok (.dict (setKey es "text" (.dict (setKey ts "text" (.str (pySlice 3000 (unesc s)))))))
        | some (.list l) =>
          if l.any (fun v => match v with | .str s => s == "&" | _ => false) then
            .error "TypeError"
          else
            .ok (.dict (setKey es "text" (.dict (setKey ts "text" (.list (l.take 3000))))))
        | some _ => .error "TypeError"
        | none => .error "KeyError"
      | some _ => .error "TypeError"
      | none => .error "KeyError"
    else .ok item
  | _ => .error "AttributeError"

/-- The loop of feedback_update_block over the existing blocks; the first
raised error aborts the call. -/
def updList (unesc : String → String) : List SVal → Except String (List SVal)
  | [] => .ok []
  | b :: rest =>
    match updItem unesc b with
    | .error e => .error e
    | .ok v =>
      match updList unesc rest with
      | .error e => .error e
      | .ok vs => .ok (v :: vs)

/-- BlockKit.feedback_update_block: falls back to build_answer_blocks()["blocks"]
when block_body is None or empty, else rewrites each section text. -/
def feedback_update_block (unesc : String → String) (st : BlockKit) : Except String (List SVal) :=
  if (st.block_body.getD []).isEmpty then
    .ok (getBlocks (build_answer_blocks unesc st))
  else updList unesc (st.block_body.getD [])

/-- BlockKit.feedback_update_block_session: backward-compat alias. -/
def feedback_update_block_session (unesc : String → String) (st : BlockKit) :
    Except String (List SVal) :=
  feedback_update_block unesc st

/-- BlockKit.self_help_link_block. -/
def self_help_link_block : List SVal :=
  [mk_section ("Thank you for your feedback. Alternatively, you may also find the " ++
               "following self-help documentation useful:\n" ++
               "<https://cloudtech.apple.com/docs|CloudTech Docs>")]

/-- BlockKit.followup_block_kit. -/
def followup_block_kit (st : BlockKit) : List SVal :=
  [mk_section ("Not clear yet? I can guide you one step at a time — " ++
               "just @mention <@" ++ pyStr st.bot_id ++ "> with your follow-up questions.")]

/-- BlockKit.followup_delay_message. -/
def followup_delay_message (st : BlockKit) : List SVal :=
  [mk_section ("Did you find the suggestion satisfactory? If not, you can ask me more " ++
               "questions by sending me an @mention <@" ++ pyStr st.bot_id ++ ">.")]

/-- BlockKit.thread_block_kit: compact thread answer, bare block list. -/
def thread_block_kit (unesc : String → String) (st : BlockKit) : List SVal :=
  if optFalsy st.llm_answer then
    [mk_section ("Sorry, <@" ++ pyStr st.user_id ++ "> — no suggestions have been found.")]
  else
    let answer := pySlice 3000 (unesc (st.llm_answer.getD ""))
    mk_section answer
      :: (link_hint_blocks (extract_links (some answer)) ++ thread_feedback_block_kit)

/-! ## The nested HelpCentral dataclass -/

/-- The BlockKit.HelpCentral nested dataclass. -/
structure HelpCentral where
  ticket_number : Option String := none
  ticket_url : Option String := none
  user_id : Option String := none

/-- HelpCentral.open_ticket_cta. -/
def open_ticket_cta : SVal :=
  .dict [("blocks", .list
    [mk_section ("Hello. If you are looking for assistance from CloudTech/CSE Support, " ++
                 "please click the button to open a ticket; someone will follow up with you."),
     .dict [("type", .str "actions"),
            ("elements", .list [mk_button "Open support request" "vertex_raise_ticket" none "value"])]])]

/-- HelpCentral.clicked_ticket_button. -/
def clicked_ticket_button (t : HelpCentral) : SVal :=
  .dict [("blocks", .list
    [mk_section ("<@" ++ pyStr t.user_id ++ "> clicked on *Open Support Request*")])]

/-- HelpCentral.ticket_creation_followup: a rich_text block. -/
def ticket_creation_followup : SVal :=
  .dict [("blocks", .list
    [.dict [("type", .str "rich_text"),
            ("elements", .list
              [.dict [("type", .str "rich_text_section"),
                      ("elements", .list
                        [.dict [("type", .str "text"),
                                ("text", .str "Creating your ticket… one moment please.")]])]])]])]

/-- HelpCentral.ticket_details: success message when ticket_url is truthy,
fixed failure message otherwise. -/
def ticket_details (t : HelpCentral) : SVal :=
  if optFalsy t.ticket_url then
    .dict [("blocks", .list
      [mk_section ("There seems to be a problem while raising the ticket. " ++
                   "Please try again after some time or contact the development team.")])]
  else
    .dict [("blocks", .list
      [mk_section ("The following HelpCentral ticket has been created on your behalf " ++
                   "<" ++ pyStr t.ticket_url ++ "|" ++ pyStr t.ticket_number ++
                   "> — someone from our team will follow up.\n" ++
                   "See SLA details: <https://cloudtech.apple.com/docs/sla|SLA link>")])]

/-- HelpCentral.hc_outage. -/
def hc_outage : SVal :=
  .dict [("blocks", .list
    [mk_section ("*Please be advised:* Due to a scheduled maintenance, " ++
                 "HelpCentral will be offline from Friday, 01/31/2025 8:00 PM PT " ++
                 "to Saturday, 02/01/2025.")])]

/-! ## Claim C8: extract_links computes exactly the regex matches

Findall below is a declarative specification of re.findall for the URL
pattern.  A derivation consumes the input left to right: a character may
be skipped only where no match starts (NoMatchHead, completeness), and a
collected match must be a maximal URL match at its position - the scheme
followed by a nonempty body of non-stop characters that runs until a stop
character or the end of the input (HeadMatch, the terminated-by clause).
Findall is deterministic (findall_unique), so the list produced by
extract_links is THE ordered sequence of matches, in order of first
appearance, duplicates preserved. -/

/-- The scheme part of the pattern: case-insensitively http:// or https://. -/
def schemeOK (sch : List Char) : Prop :=
  sch.map Char.toLower = "http://".data ∨ sch.map Char.toLower = "https://".data

/-- One substring matching the HTTP/HTTPS URL pattern. -/
def UrlShape (m : List Char) : Prop :=
  ∃ sch body, m = sch ++ body ∧ schemeOK sch ∧ body ≠ [] ∧ ∀ c ∈ body, isStop c = false

/-- What follows a maximal match: nothing, or a stop character. -/
def stopOrEnd (rest : List Char) : Prop := ∀ d, rest.head? = some d → isStop d = true

/-- A maximal match of the pattern at the head of m ++ rest. -/
def HeadMatch (m rest : List Char) : Prop := UrlShape m ∧ stopOrEnd rest

/-- No match of the pattern starts at the head of cs. -/
def NoMatchHead (cs : List Char) : Prop := ¬ ∃ m rest, cs = m ++ rest ∧ HeadMatch m rest

/-- Declarative re.findall: skip a character only where no match starts,
collect a maximal match and resume after it. -/
inductive Findall : List Char → List (List Char) → Prop where
  | nil : Findall [] []
  | skip (c : Char) (cs tail : List Char) (ms : List (List Char)) :
      cs = c :: tail → NoMatchHead cs → Findall tail ms → Findall cs ms
  | found (cs m rest : List Char) (ms : List (List Char)) :
      cs = m ++ rest → HeadMatch m rest → Findall rest ms → Findall cs (m :: ms)

theorem stripCI_sound : ∀ (pat cs tk r : List Char),
    stripCI pat cs = some (tk, r) → cs = tk ++ r ∧ tk.map Char.toLower = pat := by
  intro pat
  induction pat with
  | nil =>
    intro cs tk r h
    simp only [stripCI, Option.some.injEq, Prod.mk.injEq] at h
    obtain ⟨h1, h2⟩ := h
    subst h1; subst h2
    simp
  | cons p ps ih =>
    intro cs tk r h
    cases cs with
    | nil => simp [stripCI] at h
    | cons c cs2 =>
      simp only [stripCI] at h
      by_cases hc : c.toLower = p
      · rw [if_pos hc] at h
        cases hs : stripCI ps cs2 with
        | none => rw [hs] at h; simp at h
        | some pr =>
          obtain ⟨tk2, r2⟩ := pr
          rw [hs] at h
          simp only [Option.some.injEq, Prod.mk.injEq] at h
          obtain ⟨h1, h2⟩ := h
          obtain ⟨ha, hb⟩ := ih cs2 tk2 r2 hs
          subst h1; subst h2
          refine ⟨by rw [ha]; rfl, ?_⟩
          simp [hc, hb]
      · rw [if_neg hc] at h; simp at h

theorem stripCI_complete : ∀ (tk r : List Char),
    stripCI (tk.map Char.toLower) (tk ++ r) = some (tk, r) := by
  intro tk
  induction tk with
  | nil => intro r; rfl
  | cons c t ih =>
    intro r
    simp [stripCI, ih r]

theorem matchScheme_sound : ∀ (cs sch rest : List Char),
    matchScheme cs = some (sch, rest) →
    cs = sch ++ rest ∧ schemeOK sch ∧ sch ≠ [] := by
  intro cs sch rest h
  unfold matchScheme at h
  cases h1 : stripCI "https://".data cs with
  | some pr =>
    rw [h1] at h
    simp only [Option.some.injEq] at h
    subst h
    obtain ⟨ha, hb⟩ := stripCI_sound _ _ _ _ h1
    refine ⟨ha, Or.inr hb, ?_⟩
    intro hn
    rw [hn] at hb
    simp at hb
  | none =>
    rw [h1] at h
    obtain ⟨ha, hb⟩ := stripCI_sound _ _ _ _ h
    refine ⟨ha, Or.inl hb, ?_⟩
    intro hn
    rw [hn] at hb
    simp at hb

theorem matchScheme_ne_none : ∀ (sch X : List Char), schemeOK sch →
    matchScheme (sch ++ X) ≠ none := by
  intro sch X h hn
  unfold matchScheme at hn
  rcases h with h7 | h8
  · have hc : stripCI "http://".data (sch ++ X) = some (sch, X) := by
      rw [← h7]; exact stripCI_complete sch X
    cases hS : stripCI "https://".data (sch ++ X) with
    | some pr =>
      simp only [hS] at hn
      exact Option.noConfusion hn
    | none =>
      simp only [hS, hc] at hn
      exact Option.noConfusion hn
  · have hc : stripCI "https://".data (sch ++ X) = some (sch, X) := by
      rw [← h8]; exact stripCI_complete sch X
    simp only [hc] at hn
    exact Option.noConfusion hn

theorem scheme_prefix_unique : ∀ (s1 r1 s2 r2 : List Char),
    s1 ++ r1 = s2 ++ r2 → schemeOK s1 → schemeOK s2 → s1 = s2 ∧ r1 = r2 := by
  intro s1 r1 s2 r2 heq h1 h2
  have hlen : s1.length = s2.length := by
    rcases h1 with h1 | h1 <;> rcases h2 with h2 | h2
    · have e1 : s1.length = 7 := by simpa using congrArg List.length h1
      have e2 : s2.length = 7 := by simpa using congrArg List.length h2
      omega
    · exfalso
      have e1 : s1.length = 7 := by simpa using congrArg List.length h1
      have e2 : s2.length = 8 := by simpa using congrArg List.length h2
      have c1 : (s1 ++ r1)[4]? = s1[4]? := by
        rw [List.getElem?_append, if_pos (show 4 < s1.length by omega)]
      have c2 : (s2 ++ r2)[4]? = s2[4]? := by
        rw [List.getElem?_append, if_pos (show 4 < s2.length by omega)]
      have d1 : (s1.map Char.toLower)[4]? = some ':' := by rw [h1]; rfl
      have d2 : (s2.map Char.toLower)[4]? = some 's' := by rw [h2]; rfl
      rw [List.getElem?_map] at d1 d2
      have hx : s1[4]? = s2[4]? := by rw [← c1, ← c2, heq]
      rw [hx, d2] at d1
      exact absurd d1 (by decide)
    · exfalso
      have e1 : s1.length = 8 := by simpa using congrArg List.length h1
      have e2 : s2.length = 7 := by simpa using congrArg List.length h2
      have c1 : (s1 ++ r1)[4]? = s1[4]? := by
        rw [List.getElem?_append, if_pos (show 4 < s1.length by omega)]
      have c2 : (s2 ++ r2)[4]? = s2[4]? := by
        rw [List.getElem?_append, if_pos (show 4 < s2.length by omega)]
      have d1 : (s1.map Char.toLower)[4]? = some 's' := by rw [h1]; rfl
      have d2 : (s2.map Char.toLower)[4]? = some ':' := by rw [h2]; rfl
      rw [List.getElem?_map] at d1 d2
      have hx : s1[4]? = s2[4]? := by rw [← c1, ← c2, heq]
      rw [hx, d2] at d1
      exact absurd d1 (by decide)
    · have e1 : s1.length = 8 := by simpa using congrArg List.length h1
      have e2 : s2.length = 8 := by simpa using congrArg List.length h2
      omega
  exact List.append_inj heq hlen

theorem takeWhile_append_all (p : Char → Bool) : ∀ (xs ys : List Char),
    (∀ c ∈ xs, p c = true) → (xs ++ ys).takeWhile p = xs ++ ys.takeWhile p := by
  intro xs
  induction xs with
  | nil => intro ys h; simp
  | cons c t ih =>
    intro ys h
    have hc : p c = true := h c (List.mem_cons_self c t)
    simp only [List.cons_append, List.takeWhile_cons, hc, if_true]
    rw [ih ys (fun x hx => h x (List.mem_cons_of_mem c hx))]

theorem head?_dropWhile (p : Char → Bool) : ∀ (l : List Char) (d : Char),
    (l.dropWhile p).head? = some d → p d = false := by
  intro l
  induction l with
  | nil => intro d h; simp [List.dropWhile] at h
  | cons c t ih =>
    intro d h
    by_cases hc : p c = true
    · rw [List.dropWhile_cons, if_pos hc] at h
      exact ih d h
    · rw [List.dropWhile_cons, if_neg hc] at h
      simp only [List.head?_cons, Option.some.injEq] at h
      subst h
      simpa using hc

theorem tryMatch_sound : ∀ (cs m rest : List Char),
    tryMatch cs = some (m, rest) →
    HeadMatch m rest ∧ cs = m ++ rest ∧ m ≠ [] := by
  intro cs m rest h
  unfold tryMatch at h
  cases hms : matchScheme cs with
  | none => rw [hms] at h; simp at h
  | some pr =>
    obtain ⟨sch, rest0⟩ := pr
    rw [hms] at h
    simp only at h
    by_cases hb : (rest0.takeWhile (fun c => !(isStop c))).isEmpty
    · rw [if_pos hb] at h; simp at h
    · rw [if_neg hb] at h
      simp only [Option.some.injEq, Prod.mk.injEq] at h
      obtain ⟨h1, h2⟩ := h
      obtain ⟨ha, hsch, hne⟩ := matchScheme_sound _ _ _ hms
      subst h1; subst h2
      refine ⟨⟨⟨sch, _, rfl, hsch, ?_, ?_⟩, ?_⟩, ?_, ?_⟩
      · simpa [List.isEmpty_iff] using hb
      · intro c hc
        have := List.mem_takeWhile_imp hc
        simpa using this
      · intro d hd
        have := head?_dropWhile _ _ _ hd
        simpa using this
      · rw [ha, List.append_assoc, List.takeWhile_append_dropWhile]
      · intro hcontra
        exact hne (List.append_eq_nil.mp hcontra).1

theorem tryMatch_none : ∀ (cs : List Char), tryMatch cs = none → NoMatchHead cs := by
  intro cs hn
  rintro ⟨m, rest, heq, ⟨⟨sch, body, hm, hsch, hbne, hbody⟩, hstop⟩⟩
  have hcs : cs = sch ++ (body ++ rest) := by
    rw [heq, hm, List.append_assoc]
  cases hms : matchScheme cs with
  | none =>
    rw [hcs] at hms
    exact matchScheme_ne_none sch (body ++ rest) hsch hms
  | some pr =>
    obtain ⟨sch2, rest2⟩ := pr
    obtain ⟨hcs2, hsch2, _⟩ := matchScheme_sound _ _ _ hms
    obtain ⟨hseq, hreq⟩ :=
      scheme_prefix_unique sch2 rest2 sch (body ++ rest) (by rw [← hcs2, hcs]) hsch2 hsch
    unfold tryMatch at hn
    simp only [hms] at hn
    rw [hreq] at hn
    by_cases hb : ((body ++ rest).takeWhile (fun c => !(isStop c))).isEmpty
    · rw [takeWhile_append_all (fun c => !(isStop c)) body rest
          (fun c hc => by simp [hbody c hc])] at hb
      cases body with
      | nil => exact hbne rfl
      | cons x xs => simp at hb
    · rw [if_neg hb] at hn
      simp at hn

theorem max_run_unique (p : Char → Bool) : ∀ (b1 r1 b2 r2 : List Char),
    b1 ++ r1 = b2 ++ r2 →
    (∀ c ∈ b1, p c = true) → (∀ c ∈ b2, p c = true) →
    (∀ d, r1.head? = some d → p d = false) → (∀ d, r2.head? = some d → p d = false) →
    b1 = b2 := by
  intro b1
  induction b1 with
  | nil =>
    intro r1 b2 r2 heq h1 h2 hs1 hs2
    cases b2 with
    | nil => rfl
    | cons c t =>
      exfalso
      simp only [List.nil_append, List.cons_append] at heq
      have hhd : r1.head? = some c := by rw [heq]; rfl
      have hpc := h2 c (List.mem_cons_self c t)
      have hf := hs1 c hhd
      rw [hpc] at hf
      simp at hf
  | cons c t ih =>
    intro r1 b2 r2 heq h1 h2 hs1 hs2
    cases b2 with
    | nil =>
      exfalso
      simp only [List.cons_append, List.nil_append] at heq
      have hhd : r2.head? = some c := by rw [← heq]; rfl
      have hpc := h1 c (List.mem_cons_self c t)
      have hf := hs2 c hhd
      rw [hpc] at hf
      simp at hf
    | cons c2 t2 =>
      simp only [List.cons_append] at heq
      injection heq with hc ht
      subst hc
      rw [ih r1 t2 r2 ht (fun x hx => h1 x (List.mem_cons_of_mem c hx))
            (fun x hx => h2 x (List.mem_cons_of_mem c hx)) hs1 hs2]

theorem headMatch_ne_nil {m rest : List Char} (h : HeadMatch m rest) : m ≠ [] := by
  obtain ⟨⟨sch, body, hm, hsch, hb, _⟩, _⟩ := h
  intro hnil
  have : sch ++ body = [] := by rw [← hm, hnil]
  exact hb (List.append_eq_nil.mp this).2

theorem headMatch_unique : ∀ (m1 r1 m2 r2 : List Char),
    m1 ++ r1 = m2 ++ r2 → HeadMatch m1 r1 → HeadMatch m2 r2 → m1 = m2 ∧ r1 = r2 := by
  intro m1 r1 m2 r2 heq h1 h2
  obtain ⟨⟨s1, b1, hm1, hs1, hb1, hp1⟩, ht1⟩ := h1
  obtain ⟨⟨s2, b2, hm2, hs2, hb2, hp2⟩, ht2⟩ := h2
  have heq2 : s1 ++ (b1 ++ r1) = s2 ++ (b2 ++ r2) := by
    rw [← List.append_assoc, ← List.append_assoc, ← hm1, ← hm2]
    exact heq
  obtain ⟨hseq, hreq⟩ := scheme_prefix_unique _ _ _ _ heq2 hs1 hs2
  have hbeq : b1 = b2 := by
    refine max_run_unique (fun c => !(isStop c)) b1 r1 b2 r2 hreq ?_ ?_ ?_ ?_
    · intro x hx; simp [hp1 x hx]
    · intro x hx; simp [hp2 x hx]
    · intro d hd; simp [ht1 d hd]
    · intro d hd; simp [ht2 d hd]
  constructor
  · rw [hm1, hm2, hseq, hbeq]
  · rw [hbeq] at hreq
    exact List.append_cancel_left hreq

theorem findall_scanF : ∀ (f : Nat) (cs : List Char), cs.length ≤ f → Findall cs (scanF f cs) := by
  intro f
  induction f with
  | zero =>
    intro cs h
    have : cs = [] := List.length_eq_zero.mp (Nat.le_zero.mp h)
    subst this
    exact Findall.nil
  | succ f ih =>
    intro cs h
    cases cs with
    | nil => exact Findall.nil
    | cons c t =>
      simp only [scanF]
      cases hm : tryMatch (c :: t) with
      | none =>
        have ht : t.length ≤ f := by
          simpa [List.length_cons, Nat.succ_le_succ_iff] using h
        exact Findall.skip c (c :: t) t _ rfl (tryMatch_none _ hm) (ih t ht)
      | some pr =>
        obtain ⟨m, rest⟩ := pr
        obtain ⟨hmatch, heq, hne⟩ := tryMatch_sound _ _ _ hm
        have hlen : rest.length ≤ f := by
          have hlen2 : (c :: t).length = m.length + rest.length := by
            rw [heq, List.length_append]
          have hm1 : 1 ≤ m.length := by
            cases m with
            | nil => exact absurd rfl hne
            | cons x xs => simp
          simp only [List.length_cons] at hlen2 h
          omega
        exact Findall.found (c :: t) m rest (scanF f rest) heq hmatch (ih rest hlen)

theorem findall_unique : ∀ {cs : List Char} {ms1 ms2 : List (List Char)},
    Findall cs ms1 → Findall cs ms2 → ms1 = ms2 := by
  intro cs ms1 ms2 h1
  induction h1 generalizing ms2 with
  | nil =>
    intro h2
    cases h2 with
    | nil => rfl
    | skip c0 cs0 tail0 ms0 heq0 hno0 hr0 => simp at heq0
    | found cs0 m0 rest0 ms0 heq0 hm0 hr0 =>
      exact absurd (List.append_eq_nil.mp heq0.symm).1 (headMatch_ne_nil hm0)
  | skip c cs1 tail ms heq hno hr ih =>
    intro h2
    cases h2 with
    | nil => simp at heq
    | skip c2 cs2 tail2 ms2a heq2 hno2 hr2 =>
      rw [heq] at heq2
      injection heq2 with hch htl
      subst htl
      exact ih hr2
    | found cs2 m2 rest2 ms2a heq2 hm2 hr2 =>
      exact absurd ⟨m2, rest2, heq2, hm2⟩ hno
  | found cs1 m rest ms heq hm hr ih =>
    intro h2
    cases h2 with
    | nil =>
      exact absurd (List.append_eq_nil.mp heq.symm).1 (headMatch_ne_nil hm)
    | skip c2 cs2 tail2 ms2a heq2 hno2 hr2 =>
      exact absurd ⟨m, rest, heq, hm⟩ hno2
    | found cs2 m2 rest2 ms2a heq2 hm2 hr2 =>
      obtain ⟨hmeq, hreq⟩ :=
        headMatch_unique m rest m2 rest2 (by rw [← heq, ← heq2]) hm hm2
      subst hmeq
      rw [← hreq] at hr2
      rw [ih hr2]

/-- Claim C8: extract_links of an absent or empty input is the empty
sequence; and for every string s, the returned link list satisfies the
declarative findall specification — characters are skipped only where no
match of the case-insensitive HTTP/HTTPS URL pattern starts, and each
collected match is maximal (its body runs to a terminator or the end) —
and that specification is deterministic, so the result is exactly the
ordered sequence of pattern matches, in order of first appearance with
duplicates preserved. -/
theorem c8_extract_links :
    extract_links none = [] ∧ extract_links (some "") = []
    ∧ ∀ s : String,
        Findall s.data ((extract_links (some s)).map String.data)
        ∧ ∀ ms : List (List Char), Findall s.data ms →
            ms = (extract_links (some s)).map String.data := by
  refine ⟨rfl, rfl, ?_⟩
  intro s
  have hmain : Findall s.data ((extract_links (some s)).map String.data) := by
    have h := findall_scanF s.data.length s.data (Nat.le_refl _)
    by_cases hs : s = ""
    · subst hs
      exact Findall.nil
    · simp only [extract_links, if_neg hs, List.map_map]
      simpa [show String.data ∘ String.mk = id from rfl] using h
  exact ⟨hmain, fun ms hms => findall_unique hms hmain⟩

/-- Claim C8, witness: uniqueness applied at a concrete one-character
input whose only derivation skips the character. -/
theorem c8_witness :
    ([] : List (List Char)) = (extract_links (some "a")).map String.data
    ∧ extract_links (some "a") = [] :=
  ⟨(c8_extract_links.2.2 "a").2 []
    (Findall.skip 'a' ['a'] [] [] rfl (tryMatch_none ['a'] (by decide)) Findall.nil),
   rfl⟩

/-! ## Claim C1: routing label normalization -/

/-- Claim C1, counterexample: the claim states that a route key outside the
table maps to the literal "General", but set_channel_name("help-foo") sets
channel_name to "help-foo" itself — mapping.get(raw, raw or "General")
only falls back to "General" for empty input. -/
theorem c1_counterexample :
    (set_channel_name emptyKit "help-foo").channel_name = some "help-foo" ∧
    (set_channel_name emptyKit "help-foo").channel_name ≠ some "General" := by
  refine ⟨rfl, ?_⟩
  decide

/-- Claim C1, amended: every route key of the documented table maps to its
documented short label, empty input maps to "General", and any non-empty
key outside the table maps to the key itself (not to "General"). -/
theorem c1_route_table : ∀ st : BlockKit,
    ((set_channel_name st "help-gcp-apple").channel_name = some "GCP"
      ∧ (set_channel_name st "help-aws-apple").channel_name = some "AWS"
      ∧ (set_channel_name st "help-oci-apple").channel_name = some "OCI"
      ∧ (set_channel_name st "help-icloud-apple").channel_name = some "iCloud"
      ∧ (set_channel_name st "help-alicloud").channel_name = some "Alicloud"
      ∧ (set_channel_name st "help-linux-found").channel_name = some "Linux Foundation"
      ∧ (set_channel_name st "help-rubix").channel_name = some "Rubix"
      ∧ (set_channel_name st "help-spinclou").channel_name = some "Spincloud")
    ∧ (set_channel_name st "").channel_name = some "General"
    ∧ ∀ raw : String, raw ≠ "" → channel_mapping.lookup raw = none →
        (set_channel_name st raw).channel_name = some raw := by
  intro st
  refine ⟨⟨rfl, rfl, rfl, rfl, rfl, rfl, rfl, rfl⟩, rfl, ?_⟩
  intro raw h1 h2
  simp [set_channel_name, h2, if_neg h1]

/-- Claim C1, witness for the amended theorem at a concrete unknown key. -/
theorem c1_witness :
    (set_channel_name emptyKit "no-such-route").channel_name = some "no-such-route" :=
  (c1_route_table emptyKit).2.2 "no-such-route" (by decide) (by decide)

/-! ## Claim C3: empty answer branch of build_answer_blocks -/

/-- Claim C3: for every builder state whose llm_answer is None or empty,
build_answer_blocks returns a wrapper with key "blocks" holding exactly one
section block carrying the literal no-suggestion message, the mention being
rendered from the user id. -/
theorem c3_no_answer : ∀ (unesc : String → String) (st : BlockKit),
    optFalsy st.llm_answer = true →
    build_answer_blocks unesc st = .dict [("blocks", .list
      [mk_section ("Sorry, <@" ++ pyStr st.user_id ++ "> — no suggestions have been found.")])] := by
  intro unesc st h
  simp [build_answer_blocks, h]

/-- Claim C3, witness: concrete state with an absent answer. -/
theorem c3_witness :
    build_answer_blocks unescapeBasic { emptyKit with user_id := some "U123" } =
      .dict [("blocks", .list [mk_section "Sorry, <@U123> — no suggestions have been found."])] :=
  c3_no_answer unescapeBasic _ rfl

/-! ## Claim C7: ticket_details outcome -/

/-- Claim C7: with a truthy ticket URL, ticket_details renders the success
section whose text combines the URL and ticket number into one link and ends
with the static SLA-documentation link; with the URL absent (or empty, the
same falsy condition), it renders the fixed failure/retry message regardless
of the ticket number. -/
theorem c7_ticket_details : ∀ t : HelpCentral,
    (optFalsy t.ticket_url = false →
      ticket_details t = .dict [("blocks", .list
        [mk_section ("The following HelpCentral ticket has been created on your behalf " ++
          "<" ++ pyStr t.ticket_url ++ "|" ++ pyStr t.ticket_number ++
          "> — someone from our team will follow up.\n" ++
          "See SLA details: <https://cloudtech.apple.com/docs/sla|SLA link>")])])
    ∧ (optFalsy t.ticket_url = true →
      ticket_details t = .dict [("blocks", .list
        [mk_section ("There seems to be a problem while raising the ticket. " ++
          "Please try again after some time or contact the development team.")])]) := by
  intro t
  constructor <;> intro h <;> simp [ticket_details, h]

/-- Claim C7, witness: both branches at concrete ticket values. -/
theorem c7_witness :
    ticket_details ⟨some "INC42", some "http://hc/42", none⟩ = .dict [("blocks", .list
      [mk_section ("The following HelpCentral ticket has been created on your behalf " ++
        "<http://hc/42|INC42> — someone from our team will follow up.\n" ++
        "See SLA details: <https://cloudtech.apple.com/docs/sla|SLA link>")])]
    ∧ ticket_details ⟨some "INC42", none, none⟩ = .dict [("blocks", .list
      [mk_section ("There seems to be a problem while raising the ticket. " ++
        "Please try again after some time or contact the development team.")])] :=
  ⟨(c7_ticket_details _).1 rfl, (c7_ticket_details _).2 rfl⟩

/-! ## Claim C5: thread_block_kit vs build_answer_blocks -/

/-- Rename a thread-scoped action identifier to its message-level twin. -/
def retagId : SVal → SVal
  | .str "thread_positive" => .str "vertex_positive"
  | .str "thread_negative" => .str "vertex_negative"
  | v => v

/-- Apply retagId to the action_id entry of a button. -/
def retagButton : SVal → SVal
  | .dict es => .dict (es.map (fun p => if p.1 == "action_id" then (p.1, retagId p.2) else p))
  | v => v

/-- Apply the identifier renaming inside an actions block; leave every
other block unchanged. -/
def retagToMessage : SVal → SVal
  | .dict [("type", .str "actions"), ("elements", .list els)] =>
    .dict [("type", .str "actions"), ("elements", .list (els.map retagButton))]
  | v => v

theorem retag_mk_section (t : String) : retagToMessage (mk_section t) = mk_section t := rfl

theorem retag_hints (ls : List String) :
    (link_hint_blocks ls).map retagToMessage = link_hint_blocks ls := by
  unfold link_hint_blocks
  by_cases h : ls.isEmpty
  · rw [if_pos h]; rfl
  · rw [if_neg h]; rfl

theorem retag_thread_feedback :
    thread_feedback_block_kit.map retagToMessage = feedback_block_kit := rfl

/-- Claim C5: for every builder state, the wrapped block sequence of
build_answer_blocks equals the bare sequence of thread_block_kit with the
thread-scoped action identifiers renamed to the message-level ones
(thread_positive to vertex_positive, thread_negative to vertex_negative),
preceded by the fixed preamble section exactly when an answer is present
(the no-answer branch has no preamble on either side).  thread_block_kit
itself returns the bare sequence, build_answer_blocks the wrapper. -/
theorem c5_thread_vs_message : ∀ (unesc : String → String) (st : BlockKit),
    build_answer_blocks unesc st = .dict [("blocks", .list
      ((if optFalsy st.llm_answer then ([] : List SVal) else [preambleSection])
        ++ (thread_block_kit unesc st).map retagToMessage))] := by
  intro unesc st
  by_cases h : optFalsy st.llm_answer = true
  · simp [build_answer_blocks, thread_block_kit, h, retag_mk_section]
  · have h2 : optFalsy st.llm_answer = false := by simpa using h
    simp [build_answer_blocks, thread_block_kit, h2, preambleSection,
          retag_mk_section, retag_hints, retag_thread_feedback]

/-! ## Claim C4: single-URL answer payload -/

/-- Claim C4, counterexample: the claim quantifies over answers containing
exactly one URL, but the link hints are computed from the entity-decoded
answer, not from the raw answer text.  The raw answer "http://a&gt;b c"
contains exactly one URL match, http://a&gt;b, yet the produced link-hint
section lists http://a (the match of the decoded text "http://a>b c",
which stops at the decoded terminator >), a different URL. -/
theorem c4_counterexample :
    extract_links (some "http://a&gt;b c") = ["http://a&gt;b"]
    ∧ build_answer_blocks unescapeBasic { emptyKit with llm_answer := some "http://a&gt;b c" } =
        .dict [("blocks", .list
          [preambleSection,
           mk_section "http://a>b c",
           mk_section "*The following link(s) might help you:*\n• http://a",
           divider,
           mk_section "Did you find our suggestion satisfactory?",
           .dict [("type", .str "actions"),
                  ("elements", .list
                    [mk_button "👍" "vertex_positive" (some "primary") "value",
                     mk_button "👎" "vertex_negative" (some "danger") "value"])]])]
    ∧ ("http://a" : String) ≠ "http://a&gt;b" := by
  refine ⟨by decide, rfl, by decide⟩

/-- Claim C4, amended: for every builder state whose answer is present and
nonempty and whose embedded answer text (the entity-decoded, truncated
answer) contains exactly one URL, build_answer_blocks produces, in this
exact order: the fixed preamble section, the answer section, one link-hint
section listing that URL, a divider, the feedback-prompt section, and an
actions block with exactly two buttons whose action identifiers are
vertex_positive and vertex_negative. -/
theorem c4_single_link_blocks : ∀ (unesc : String → String) (st : BlockKit) (a url : String),
    st.llm_answer = some a → a ≠ "" →
    extract_links (some (pySlice 3000 (unesc a))) = [url] →
    build_answer_blocks unesc st = .dict [("blocks", .list
      [preambleSection,
       mk_section (pySlice 3000 (unesc a)),
       mk_section ("*The following link(s) might help you:*\n" ++ ("• " ++ url)),
       divider,
       mk_section "Did you find our suggestion satisfactory?",
       .dict [("type", .str "actions"),
              ("elements", .list
                [mk_button "👍" "vertex_positive" (some "primary") "value",
                 mk_button "👎" "vertex_negative" (some "danger") "value"])]])] := by
  intro unesc st a url ha hne hl
  have hf : optFalsy (some a) = false := by
    simp [optFalsy, hne]
  simp [build_answer_blocks, hf, ha, hl, link_hint_blocks, pyJoin,
        feedback_block_kit, preambleSection]

/-- Claim C4, witness for the amended theorem at a concrete one-URL answer. -/
theorem c4_witness :
    build_answer_blocks unescapeBasic { emptyKit with llm_answer := some "a http://x.y" } =
      .dict [("blocks", .list
        [preambleSection,
         mk_section "a http://x.y",
         mk_section "*The following link(s) might help you:*\n• http://x.y",
         divider,
         mk_section "Did you find our suggestion satisfactory?",
         .dict [("type", .str "actions"),
                ("elements", .list
                  [mk_button "👍" "vertex_positive" (some "primary") "value",
                   mk_button "👎" "vertex_negative" (some "danger") "value"])]])] :=
  c4_single_link_blocks unescapeBasic _ "a http://x.y" "http://x.y" rfl (by decide) (by decide)

/-! ## Claim C2: 3000-character truncation of answer text -/

/-- The string "&amp;" repeated 700 times: 3500 characters whose
HTML-unescaped form has only 700. -/
def s3500 : String := ⟨(List.replicate 700 ['&', 'a', 'm', 'p', ';']).flatten⟩

theorem s3500_data : s3500.data = (List.replicate 700 ['&', 'a', 'm', 'p', ';']).flatten := rfl

theorem unescChars_amp : ∀ n, unescChars ((List.replicate n ['&', 'a', 'm', 'p', ';']).flatten) =
    List.replicate n '&' := by
  intro n
  induction n with
  | zero => rfl
  | succ k ih => simp [List.replicate_succ, List.flatten_cons, unescChars, ih]

theorem length_flatten_replicate : ∀ (n : Nat) (l : List Char),
    ((List.replicate n l).flatten).length = n * l.length := by
  intro n l
  induction n with
  | zero => simp
  | succ k ih =>
    rw [List.replicate_succ, List.flatten_cons, List.length_append, ih]
    ring

/-- A 3001-character answer with no HTML entities. -/
def xs3001 : String := ⟨List.replicate 3001 'x'⟩

theorem unescChars_x : ∀ n, unescChars (List.replicate n 'x') = List.replicate n 'x' := by
  intro n
  induction n with
  | zero => rfl
  | succ k ih =>
    rw [List.replicate_succ]
    rw [show unescChars ('x' :: List.replicate k 'x') = 'x' :: unescChars (List.replicate k 'x')
          from rfl, ih]

theorem s3500_length : s3500.length = 3500 := by
  show s3500.data.length = 3500
  rw [s3500_data, length_flatten_replicate]
  norm_num

/-- The answer section is the block at index 1 of build_answer_blocks for
any present nonempty answer. -/
theorem build_answer_index1 (unesc : String → String) (st : BlockKit) (a : String)
    (ha : st.llm_answer = some a) (hne : a ≠ "") :
    (getBlocks (build_answer_blocks unesc st))[1]? =
      some (mk_section (pySlice 3000 (unesc a))) := by
  have hf : optFalsy (some a) = false := by simp [optFalsy, hne]
  simp [build_answer_blocks, ha, hf, getBlocks]

/-- The answer section is the head block of thread_block_kit for any
present nonempty answer. -/
theorem thread_answer_head (unesc : String → String) (st : BlockKit) (a : String)
    (ha : st.llm_answer = some a) (hne : a ≠ "") :
    (thread_block_kit unesc st).head? = some (mk_section (pySlice 3000 (unesc a))) := by
  have hf : optFalsy (some a) = false := by simp [optFalsy, hne]
  simp [thread_block_kit, ha, hf]

/-- Claim C2, counterexample: the claim states that every answer string
longer than 3000 characters yields a text field of exactly 3000
characters, but unescaping happens before the [:3000] slice: the
3500-character input made of 700 copies of the amp entity shrinks to 700
characters, and the embedded answer-section text has length 700. -/
theorem c2_counterexample :
    3000 < s3500.length
    ∧ (getBlocks (build_answer_blocks unescapeBasic
        { emptyKit with llm_answer := some s3500 }))[1]? =
        some (mk_section (String.mk (List.replicate 700 '&')))
    ∧ (String.mk (List.replicate 700 '&')).length ≠ 3000 := by
  have hlen := s3500_length
  have hne : s3500 ≠ "" := by
    intro h
    rw [h] at hlen
    simp [String.length] at hlen
  have hu : unescapeBasic s3500 = ⟨List.replicate 700 '&'⟩ := by
    show (⟨unescChars s3500.data⟩ : String) = _
    rw [s3500_data, unescChars_amp]
  have htake : pySlice 3000 (⟨List.replicate 700 '&'⟩ : String) = ⟨List.replicate 700 '&'⟩ := by
    show (⟨(List.replicate 700 '&').take 3000⟩ : String) = _
    exact congrArg (fun l : List Char => (⟨l⟩ : String))
      (List.take_of_length_le (by rw [List.length_replicate]; norm_num))
  refine ⟨by rw [hlen]; norm_num, ?_, ?_⟩
  · rw [build_answer_index1 unescapeBasic _ s3500 rfl hne, hu, htake]
  · show (List.replicate 700 '&').length ≠ 3000
    rw [List.length_replicate]
    norm_num

/-- Claim C2, amended: for every answer string longer than 3000 characters
whose HTML-unescaped form is also longer than 3000 characters, every
formatting method embedding it as answer text produces a text field of
exactly 3000 characters (the first 3000 characters of the unescaped form),
without error: the answer section of build_answer_blocks, the leading
answer section of thread_block_kit, and the section-text update step of
feedback_update_block. -/
theorem c2_truncation : ∀ (unesc : String → String) (a : String),
    3000 < a.length → 3000 < (unesc a).length →
    (pySlice 3000 (unesc a)).length = 3000
    ∧ (∀ st : BlockKit, st.llm_answer = some a →
        (getBlocks (build_answer_blocks unesc st))[1]? =
          some (mk_section (pySlice 3000 (unesc a)))
        ∧ (thread_block_kit unesc st).head? = some (mk_section (pySlice 3000 (unesc a))))
    ∧ updItem unesc (.dict [("type", .str "section"),
        ("text", .dict [("type", .str "mrkdwn"), ("text", .str a)])]) =
      .ok (.dict [("type", .str "section"),
        ("text", .dict [("type", .str "mrkdwn"), ("text", .str (pySlice 3000 (unesc a)))])]) := by
  intro unesc a h1 h2
  have hne : a ≠ "" := by
    intro h
    rw [h] at h1
    simp [String.length] at h1
  have hf : optFalsy (some a) = false := by simp [optFalsy, hne]
  refine ⟨?_, ?_, ?_⟩
  · show ((unesc a).data.take 3000).length = 3000
    rw [List.length_take]
    exact Nat.min_eq_left (Nat.le_of_lt h2)
  · intro st ha
    exact ⟨build_answer_index1 unesc st a ha hne, thread_answer_head unesc st a ha hne⟩
  · rfl

/-- Claim C2, witness: a 3001-character entity-free answer, truncated to
exactly 3000 characters in the message payload. -/
theorem c2_witness :
    3000 < xs3001.length
    ∧ (pySlice 3000 (unescapeBasic xs3001)).length = 3000
    ∧ (getBlocks (build_answer_blocks unescapeBasic
        { emptyKit with llm_answer := some xs3001 }))[1]? =
        some (mk_section (pySlice 3000 (unescapeBasic xs3001))) := by
  have hlen : xs3001.length = 3001 := by
    show (List.replicate 3001 'x').length = 3001
    simp
  have hulen : (unescapeBasic xs3001).length = 3001 := by
    show (unescChars (List.replicate 3001 'x')).length = 3001
    rw [unescChars_x]
    simp
  have h1 : 3000 < xs3001.length := by rw [hlen]; norm_num
  have h2 : 3000 < (unescapeBasic xs3001).length := by rw [hulen]; norm_num
  have hmain := c2_truncation unescapeBasic xs3001 h1 h2
  exact ⟨h1, hmain.1, (hmain.2.1 _ rfl).1⟩

/-! ## Claim C6: in-place edit of an existing block sequence -/

/-- A block the update loop of feedback_update_block can process without
raising: any mapping that is not a section-with-text, or a
section-with-text whose text field is a mapping with a string text
sub-field. -/
def updatable (b : SVal) : Bool :=
  match b with
  | .dict es =>
    if isSectionWithText es then
      match List.lookup "text" es with
      | some (.dict ts) =>
        match List.lookup "text" ts with
        | some (.str _) => true
        | _ => false
      | _ => false
    else true
  | _ => false

/-- The per-block effect the spec describes: HTML-unescape and truncate the
nested text of a section-with-text block, leave every other block
unchanged. -/
def updPure (unesc : String → String) (b : SVal) : SVal :=
  match b with
  | .dict es =>
    if isSectionWithText es then
      match List.lookup "text" es with
      | some (.dict ts) =>
        match List.lookup "text" ts with
        | some (.str s) =>
          .dict (setKey es "text" (.dict (setKey ts "text" (.str (pySlice 3000 (unesc s))))))
        | _ => b
      | _ => b
    else b
  | _ => b

theorem updItem_eq_updPure (unesc : String → String) (b : SVal) (h : updatable b = true) :
    updItem unesc b = .ok (updPure unesc b) := by
  cases b with
  | str s => simp [updatable] at h
  | bool x => simp [updatable] at h
  | list l => simp [updatable] at h
  | dict es =>
    simp only [updatable] at h
    simp only [updItem, updPure]
    by_cases hg : isSectionWithText es
    · simp only [if_pos hg] at h ⊢
      cases h1 : List.lookup "text" es with
      | none => simp only [h1] at h; simp at h
      | some tv =>
        simp only [h1] at h ⊢
        cases tv with
        | dict ts =>
          cases h2 : List.lookup "text" ts with
          | none => simp only [h2] at h; simp at h
          | some sv =>
            simp only [h2] at h ⊢
            cases sv with
            | str s => rfl
            | bool x => simp at h
            | list l => simp at h
            | dict d => simp at h
        | str s => simp at h
        | bool x => simp at h
        | list l => simp at h
    · simp only [if_neg hg]

theorem updList_map (unesc : String → String) : ∀ bs : List SVal,
    (∀ b ∈ bs, updatable b = true) →
    updList unesc bs = .ok (bs.map (updPure unesc)) := by
  intro bs h
  induction bs with
  | nil => rfl
  | cons b rest ih =>
    have hb := h b (List.mem_cons_self _ _)
    have hr := ih (fun x hx => h x (List.mem_cons_of_mem _ hx))
    simp [updList, updItem_eq_updPure unesc b hb, hr]

/-- Claim C6, counterexample: the claim states the update returns the
sequence for every supplied block sequence, but a section block whose
"text" field is a plain string makes the call raise instead of returning;
other blocks of the sequence (the divider) do not save it. -/
theorem c6_counterexample :
    feedback_update_block unescapeBasic
      { emptyKit with
        block_body := some [divider,
          SVal.dict [("type", SVal.str "section"), ("text", SVal.str "plain text")]] } =
      .error "TypeError" := rfl

/-- Claim C6, amended: when block_body is absent or empty,
feedback_update_block returns the block sequence of build_answer_blocks;
when a nonempty block sequence is supplied whose members are mappings and
whose section-with-text members carry mapping-valued text with a string
text sub-field, it returns the sequence with exactly those nested section
texts HTML-unescaped and truncated to 3000 characters and every other
block structurally unchanged (updPure). -/
theorem c6_update_blocks : ∀ (unesc : String → String) (st : BlockKit),
    ((st.block_body.getD []).isEmpty = true →
      feedback_update_block unesc st = .ok (getBlocks (build_answer_blocks unesc st)))
    ∧ ∀ bb : List SVal, st.block_body = some bb → bb ≠ [] →
        (∀ b ∈ bb, updatable b = true) →
        feedback_update_block unesc st = .ok (bb.map (updPure unesc)) := by
  intro unesc st
  constructor
  · intro h
    simp [feedback_update_block, h]
  · intro bb hbb hne h
    have he : bb.isEmpty = false := by
      cases bb with
      | nil => exact absurd rfl hne
      | cons x xs => rfl
    simp [feedback_update_block, hbb, he, updList_map unesc bb h]

/-- Claim C6, witness: a divider plus a well-formed section; the divider is
untouched and the section text is unescaped in place. -/
theorem c6_witness :
    feedback_update_block unescapeBasic
      { emptyKit with
        block_body := some [divider,
          SVal.dict [("type", SVal.str "section"),
                     ("text", SVal.dict [("type", SVal.str "mrkdwn"), ("text", SVal.str "a&amp;b")])]] } =
      .ok [divider,
        SVal.dict [("type", SVal.str "section"),
                   ("text", SVal.dict [("type", SVal.str "mrkdwn"), ("text", SVal.str "a&b")])]] :=
  (c6_update_blocks unescapeBasic _).2
    [divider,
     SVal.dict [("type", SVal.str "section"),
                ("text", SVal.dict [("type", SVal.str "mrkdwn"), ("text", SVal.str "a&amp;b")])]]
    rfl (List.cons_ne_nil _ _)
    (by
      intro b hb
      simp only [List.mem_cons, List.not_mem_nil, or_false] at hb
      rcases hb with h | h <;> subst h <;> rfl)

/-! ## Claim C9: graceful degradation over absent fields -/

/-- Well-formedness of a button element. -/
def goodButton (v : SVal) : Bool :=
  match v with
  | .dict [("type", .str "button"),
           ("text", .dict [("type", .str "plain_text"), ("text", .str _), ("emoji", .bool _)]),
           ("value", .str _), ("action_id", .str _)] => true
  | .dict [("type", .str "button"),
           ("text", .dict [("type", .str "plain_text"), ("text", .str _), ("emoji", .bool _)]),
           ("value", .str _), ("action_id", .str _), ("style", .str _)] => true
  | _ => false

/-- Well-formedness of a rich text leaf. -/
def goodTextLeaf (v : SVal) : Bool :=
  match v with
  | .dict [("type", .str "text"), ("text", .str _)] => true
  | _ => false

/-- Well-formedness of a rich_text_section element. -/
def goodRichSection (v : SVal) : Bool :=
  match v with
  | .dict [("type", .str "rich_text_section"), ("elements", .list leaves)] =>
    leaves.all goodTextLeaf
  | _ => false

/-- Well-formedness of one produced block: a divider, a section with mrkdwn
string text, an actions block of well-formed buttons, or a rich_text block
of well-formed rich text sections. -/
def goodBlock (v : SVal) : Bool :=
  match v with
  | .dict [("type", .str "divider")] => true
  | .dict [("type", .str "section"),
           ("text", .dict [("type", .str "mrkdwn"), ("text", .str _)])] => true
  | .dict [("type", .str "actions"), ("elements", .list els)] => els.all goodButton
  | .dict [("type", .str "rich_text"), ("elements", .list els)] => els.all goodRichSection
  | _ => false

/-- Well-formedness of a wrapper payload: a dict with a single blocks key
holding well-formed blocks. -/
def goodPayload (v : SVal) : Bool :=
  match v with
  | .dict [("blocks", .list bs)] => bs.all goodBlock
  | _ => false

theorem goodBlock_mk_section (t : String) : goodBlock (mk_section t) = true := rfl

theorem goodBlock_hints (ls : List String) : (link_hint_blocks ls).all goodBlock = true := by
  unfold link_hint_blocks
  by_cases h : ls.isEmpty
  · rw [if_pos h]; rfl
  · rw [if_neg h]; rfl

theorem goodBlock_feedback : feedback_block_kit.all goodBlock = true := rfl

theorem goodBlock_thread_feedback : thread_feedback_block_kit.all goodBlock = true := rfl

theorem goodPayload_build (unesc : String → String) (st : BlockKit) :
    goodPayload (build_answer_blocks unesc st) = true := by
  by_cases h : optFalsy st.llm_answer = true
  · simp [build_answer_blocks, h, goodPayload, goodBlock_mk_section]
  · have h2 : optFalsy st.llm_answer = false := by simpa using h
    simp [build_answer_blocks, h2, goodPayload, List.all_cons, List.all_append,
          goodBlock_mk_section, goodBlock_hints, goodBlock_feedback]

theorem goodBlocks_thread (unesc : String → String) (st : BlockKit) :
    (thread_block_kit unesc st).all goodBlock = true := by
  by_cases h : optFalsy st.llm_answer = true
  · simp [thread_block_kit, h, goodBlock_mk_section]
  · have h2 : optFalsy st.llm_answer = false := by simpa using h
    simp [thread_block_kit, h2, List.all_cons, List.all_append,
          goodBlock_mk_section, goodBlock_hints, goodBlock_thread_feedback]

/-- Claim C9, counterexample: the claim states no formatting method raises
for any combination of present/absent optional fields, but with every
field present — block_body holding a section whose text is a plain
string — feedback_update_block raises. -/
theorem c9_counterexample :
    feedback_update_block unescapeBasic
      { thread := some "171", question := some "q", user_id := some "U1",
        block_body := some [SVal.dict [("type", SVal.str "section"), ("text", SVal.str "raw")]],
        channel_id := some "C1", additional_details := some "d", bot_id := some "B1",
        llm_answer := some "ans", llm_link := some "l", channel_name := some "GCP" } =
      .error "TypeError" := rfl

/-- Claim C9, amended: every formatting method other than
feedback_update_block and its alias feedback_update_block_session is
total for every combination of present/absent optional fields and yields
a well-formed block structure; an absent user or bot id renders as the
<@None> placeholder literal in the no-suggestion message (message-level
and thread-level), the follow-up prompts, and the clicked-ticket
acknowledgement.  feedback_update_block does not raise when block_body
is absent or empty, or when every supplied block is a mapping whose
section-with-text members carry mapping-valued text with a string text
sub-field; the alias returns exactly its result. -/
theorem c9_graceful_degradation :
    (∀ (unesc : String → String) (st : BlockKit),
      goodPayload (build_answer_blocks unesc st) = true
      ∧ (thread_block_kit unesc st).all goodBlock = true)
    ∧ (∀ st : BlockKit, (followup_block_kit st).all goodBlock = true
        ∧ (followup_delay_message st).all goodBlock = true)
    ∧ self_help_link_block.all goodBlock = true
    ∧ (∀ t : HelpCentral, goodPayload (ticket_details t) = true
        ∧ goodPayload (clicked_ticket_button t) = true)
    ∧ (goodPayload open_ticket_cta = true
        ∧ goodPayload ticket_creation_followup = true
        ∧ goodPayload hc_outage = true)
    ∧ (∀ (unesc : String → String) (st : BlockKit),
        (∀ b ∈ st.block_body.getD [], updatable b = true) →
        (feedback_update_block unesc st).isOk = true)
    ∧ (∀ (unesc : String → String) (st : BlockKit),
        feedback_update_block_session unesc st = feedback_update_block unesc st)
    ∧ (∀ (unesc : String → String) (st : BlockKit),
        st.user_id = none → optFalsy st.llm_answer = true →
        build_answer_blocks unesc st =
          .dict [("blocks", .list
            [mk_section "Sorry, <@None> — no suggestions have been found."])])
    ∧ (∀ (unesc : String → String) (st : BlockKit),
        st.user_id = none → optFalsy st.llm_answer = true →
        thread_block_kit unesc st =
          [mk_section "Sorry, <@None> — no suggestions have been found."])
    ∧ (∀ st : BlockKit, st.bot_id = none →
        followup_block_kit st =
          [mk_section ("Not clear yet? I can guide you one step at a time — " ++
                       "just @mention <@None> with your follow-up questions.")])
    ∧ (∀ st : BlockKit, st.bot_id = none →
        followup_delay_message st =
          [mk_section ("Did you find the suggestion satisfactory? If not, you can ask me more " ++
                       "questions by sending me an @mention <@None>.")])
    ∧ (∀ t : HelpCentral, t.user_id = none →
        clicked_ticket_button t =
          .dict [("blocks", .list
            [mk_section "<@None> clicked on *Open Support Request*"])]) := by
  refine ⟨fun unesc st => ⟨goodPayload_build unesc st, goodBlocks_thread unesc st⟩,
          fun st => ⟨rfl, rfl⟩, rfl, ?_, ⟨rfl, rfl, rfl⟩, ?_,
          fun unesc st => rfl, ?_, ?_, ?_, ?_, ?_⟩
  · intro t
    constructor
    · by_cases h : optFalsy t.ticket_url = true
      · simp [ticket_details, h, goodPayload, goodBlock_mk_section]
      · have h2 : optFalsy t.ticket_url = false := by simpa using h
        simp [ticket_details, h2, goodPayload, goodBlock_mk_section]
    · rfl
  · intro unesc st h
    by_cases he : (st.block_body.getD []).isEmpty = true
    · simp only [feedback_update_block, he, if_true]
      rfl
    · have he2 : (st.block_body.getD []).isEmpty = false := by simpa using he
      simp only [feedback_update_block, he2, Bool.false_eq_true, if_false,
                 updList_map unesc _ h]
      rfl
  · intro unesc st h1 h2
    simp only [build_answer_blocks, h2, if_true]
    rw [h1]
    rfl
  · intro unesc st h1 h2
    simp only [thread_block_kit, h2, if_true]
    rw [h1]
    rfl
  · intro st h
    rw [followup_block_kit, h]
    rfl
  · intro st h
    rw [followup_delay_message, h]
    rfl
  · intro t h
    rw [clicked_ticket_button, h]
    rfl

/-- Claim C9, witness: the totality and placeholder components at the
all-absent state. -/
theorem c9_witness :
    (feedback_update_block unescapeBasic emptyKit).isOk = true
    ∧ followup_block_kit emptyKit =
        [mk_section ("Not clear yet? I can guide you one step at a time — " ++
                     "just @mention <@None> with your follow-up questions.")] :=
  ⟨c9_graceful_degradation.2.2.2.2.2.1 unescapeBasic emptyKit
     (fun b hb => absurd hb (List.not_mem_nil b)),
   c9_graceful_degradation.2.2.2.2.2.2.2.2.2.1 emptyKit rfl⟩

/-! ## Claim C10: feedback_update_block is not total -/

/-- Claim C10: there is a caller-supplied block_body on which
feedback_update_block is not total: a section block whose "text" field is a
plain string makes the nested indexing item["text"]["text"] raise (a
TypeError: string indices must be integers) instead of degrading; the model
returns the corresponding error. -/
theorem c10_update_not_total :
    feedback_update_block unescapeBasic
      { emptyKit with
        block_body := some [SVal.dict [("type", SVal.str "section"), ("text", SVal.str "hello")]] } =
      .error "TypeError" := rfl
